import Mathlib

/-!
Shallow embedding of the invoice upload pipeline implemented in
`src/components/UploadPage/InvoiceViewer.tsx`: CSV parsing (`parseCSV`),
row validation (`validateInvoiceData` and its helpers), the batch importer
inside `processInvoiceFile`, the cascade deletion of `handleDeleteFile`,
the PDF detachment of `handlePdfDelete`, and the extension filter of
`handleFileSelect`.

Modelling conventions: JavaScript strings are Lean `String`s compared by
code unit (the comparison functions `jsLtL`/`jsLe` below mirror the
JavaScript relational operators); JavaScript numbers produced by
`parseFloat` are exact rationals extended with the two signed infinities
(`JsNum`), with `NaN` represented as `Option.none`; the asynchronous
backend is an explicit oracle function giving each operation an outcome,
and effects are recorded as explicit traces of issued operations.
-/

namespace InvoiceViewer

/-- Strict comparison of character lists mirroring the JavaScript `<`
relational operator on strings: code-unit lexicographic order, with a
proper prefix sorting before any extension. -/
def jsLtL : List Char → List Char → Bool
  | [], [] => false
  | [], _ :: _ => true
  | _ :: _, [] => false
  | a :: as, b :: bs => if a < b then true else if b < a then false else jsLtL as bs

/-- JavaScript `s < t` on strings. -/
def jsLt (s t : String) : Bool := jsLtL s.data t.data

/-- JavaScript `s <= t` on strings, which is the negation of `t < s`. -/
def jsLe (s t : String) : Bool := ! jsLtL t.data s.data

/-- The whitespace characters recognized by the string-trimming and
number-parsing primitives (ASCII fragment of the JavaScript set). -/
def isJsWhitespace (c : Char) : Bool := [' ', '\t', '\n', '\r'].contains c

/-- Mirrors `String.prototype.trim`: strip leading and trailing
whitespace. -/
def jsTrim (s : String) : String :=
  ⟨((s.data.dropWhile isJsWhitespace).reverse.dropWhile isJsWhitespace).reverse⟩

/-- Splitting of a character list at every occurrence of the separator,
mirroring `String.prototype.split` with a one-character separator (the
only form the source uses). -/
def splitCharList (sep : Char) : List Char → List String
  | [] => [""]
  | c :: cs =>
    if c = sep then "" :: splitCharList sep cs
    else
      match splitCharList sep cs with
      | h :: t => ⟨c :: h.data⟩ :: t
      | [] => [⟨[c]⟩]

/-- Mirrors `s.split(sep)` for a one-character separator. -/
def splitOnChar (sep : Char) (s : String) : List String := splitCharList sep s.data

/-- Mirrors `str.replace(/"/g, '')`: every double-quote character is removed,
wherever it occurs in the string. -/
def removeQuotes (s : String) : String := ⟨s.data.filter (fun c => c ≠ '"')⟩

/-- One field of a CSV line as produced by the source: `field.trim()`
followed by `replace(/"/g, '')`. -/
def cleanField (s : String) : String := removeQuotes (jsTrim s)

/-- A parsed tabular row: an association of field names to field values,
mirroring the JavaScript object literal built by `parseCSV` (an assignment
to an existing key overwrites it, a new key is appended). -/
abbrev CsvRow := List (String × String)

/-- Mirrors `row[header] = value` on a JavaScript object. -/
def setField (r : CsvRow) (k v : String) : CsvRow :=
  if r.any (fun p => p.1 == k) then
    r.map (fun p => if p.1 == k then (k, v) else p)
  else
    r ++ [(k, v)]

/-- Mirrors reading `row[key]` where an absent key (JavaScript `undefined`)
is identified with the empty string: both are falsy, and `parseFloat` maps
both `""` and `"undefined"` to `NaN`. -/
def getField (r : CsvRow) (k : String) : String :=
  ((r.find? (fun p => p.1 == k)).map Prod.snd).getD ""

/-- Mirrors the per-line construction in `parseCSV`:
`headers.forEach((header, index) => { row[header] = values[index] || '' })`. -/
def buildRow (headers values : List String) : CsvRow :=
  headers.enum.foldl (fun r p => setField r p.2 (values.getD p.1 "")) []

/-- Mirrors `parseCSV`: split the text on newlines, drop blank lines, treat
the first remaining line as the comma-delimited header, clean every field
with `cleanField`, and map each later line positionally onto the header
(missing trailing fields become the empty string).  Fewer than two
non-blank lines yield zero rows. -/
def parseCSV (csvText : String) : List CsvRow :=
  let lines := (splitOnChar '\n' csvText).filter (fun line => jsTrim line ≠ "")
  match lines with
  | [] => []
  | [_] => []
  | header :: rest =>
    let headers := (splitOnChar ',' header).map cleanField
    rest.map (fun line =>
      let values := (splitOnChar ',' line).map cleanField
      buildRow headers values)

/-- Hexadecimal digit as accepted by the case-insensitive UUID regular
expression `[0-9a-f]` under the `i` flag. -/
def isHexDigit (c : Char) : Bool :=
  c.isDigit || ('a' ≤ c && c ≤ 'f') || ('A' ≤ c && c ≤ 'F')

/-- Mirrors `isValidUUID`, the anchored case-insensitive test for
`[0-9a-f]{8}-[0-9a-f]{4}-[1-5][0-9a-f]{3}-[89ab][0-9a-f]{3}-[0-9a-f]{12}`:
exactly five hyphen-separated groups of lengths 8-4-4-4-12, all hexadecimal,
with the version nibble in `1`..`5` and the variant nibble in `8,9,a,b`. -/
def isValidUUID (s : String) : Bool :=
  match splitOnChar '-' s with
  | [g1, g2, g3, g4, g5] =>
    g1.length == 8 && g2.length == 4 && g3.length == 4 && g4.length == 4 &&
    g5.length == 12 &&
    (g1.data ++ g2.data ++ g3.data ++ g4.data ++ g5.data).all isHexDigit &&
    (match g3.data with
     | c :: _ => '1' ≤ c && c ≤ '5'
     | [] => false) &&
    (match g4.data with
     | c :: _ => ['8', '9', 'a', 'b', 'A', 'B'].contains c
     | [] => false)
  | _ => false

/-- The fixed currency allowlist of the validator. -/
def validCurrencies : List String :=
  ["USD", "EUR", "GBP", "JPY", "CAD", "AUD", "CHF", "CNY"]

/-- Mirrors `String.prototype.toUpperCase` on the ASCII fragment. -/
def jsToUpper (s : String) : String := ⟨s.data.map Char.toUpper⟩

/-- A JavaScript number as produced by `parseFloat`: an exact rational for a
finite value, or one of the two signed infinities.  `NaN` is represented by
`Option.none` at the use sites. -/
inductive JsNum
  | val (q : ℚ)
  | posInf
  | negInf
deriving DecidableEq, Repr

/-- JavaScript `<=` on non-`NaN` numbers. -/
def jsNumLe : JsNum → JsNum → Bool
  | .val a, .val b => a ≤ b
  | .negInf, _ => true
  | _, .posInf => true
  | _, _ => false

/-- JavaScript `<` on non-`NaN` numbers, the negation of the reversed `<=`. -/
def jsNumLt (a b : JsNum) : Bool := ! jsNumLe b a

/-- Value of a list of decimal digit characters, most significant first. -/
def digitsToNat (ds : List Char) : Nat :=
  ds.foldl (fun n c => 10 * n + (c.toNat - 48)) 0

/-- Exponent suffix of a `parseFloat` literal: an optional sign followed by
digits; with no digits the exponent marker is not consumed and the value is
unaffected. -/
def parseExp (r : List Char) : Int :=
  let signed : Int × List Char :=
    match r with
    | '-' :: t => (-1, t)
    | '+' :: t => (1, t)
    | t => (1, t)
  let ds := signed.2.takeWhile Char.isDigit
  if ds = [] then 0 else signed.1 * (digitsToNat ds : Int)

/-- Mirrors `parseFloat`: skip leading whitespace, read an optional sign,
then either the literal `Infinity` or the longest decimal prefix
(`digits [. digits] [e|E [sign] digits]`, or `. digits ...`); any
remaining characters are ignored.  `none` means `NaN`.  The value
`sign * (intPart + fracPart / 10 ^ fracLen) * 10 ^ exp` is assembled as a
single normalized fraction. -/
def parseFloatM (s : String) : Option JsNum :=
  let cs := s.data.dropWhile isJsWhitespace
  let signed : Int × List Char :=
    match cs with
    | '-' :: r => (-1, r)
    | '+' :: r => (1, r)
    | r => (1, r)
  let sign := signed.1
  let rest := signed.2
  if "Infinity".data.isPrefixOf rest then
    some (if sign = 1 then .posInf else .negInf)
  else
    let intPart := rest.takeWhile Char.isDigit
    let afterInt := rest.dropWhile Char.isDigit
    let fracAndRest : List Char × List Char :=
      match afterInt with
      | '.' :: r => (r.takeWhile Char.isDigit, r.dropWhile Char.isDigit)
      | r => ([], r)
    let fracPart := fracAndRest.1
    let afterFrac := fracAndRest.2
    if intPart = [] ∧ fracPart = [] then none
    else
      let exp : Int :=
        match afterFrac with
        | 'e' :: r => parseExp r
        | 'E' :: r => parseExp r
        | _ => 0
      let mant : Nat := digitsToNat intPart * 10 ^ fracPart.length + digitsToNat fracPart
      some (.val (if 0 ≤ exp then
        mkRat (sign * (mant * 10 ^ exp.toNat : Nat)) (10 ^ fracPart.length)
      else
        mkRat (sign * (mant : Nat)) (10 ^ fracPart.length * 10 ^ (-exp).toNat)))

/-- Leap-year rule of the proleptic Gregorian calendar used by the
JavaScript `Date` parser. -/
def isLeapYear (y : Nat) : Bool := (y % 4 == 0 && y % 100 != 0) || y % 400 == 0

/-- Number of days of month `m` of year `y` (0 for an out-of-range month). -/
def daysInMonth (y m : Nat) : Nat :=
  match m with
  | 1 => 31
  | 2 => if isLeapYear y then 29 else 28
  | 3 => 31
  | 4 => 30
  | 5 => 31
  | 6 => 30
  | 7 => 31
  | 8 => 31
  | 9 => 30
  | 10 => 31
  | 11 => 30
  | 12 => 31
  | _ => 0

/-- Decimal digit test `[0-9]`, stated on the code unit (`'0'` is 48 and
`'9'` is 57). -/
def isDigitChar (c : Char) : Bool := 48 ≤ c.toNat && c.toNat ≤ 57

/-- Decomposition of a string of the exact shape `DDDD-DD-DD` (`D` a decimal
digit) into its year, month and day numerals; `none` when the string does
not match the anchored pattern `\d{4}-\d{2}-\d{2}`. -/
def dateParts (s : String) : Option (Nat × Nat × Nat) :=
  match s.data with
  | [y1, y2, y3, y4, h1, m1, m2, h2, d1, d2] =>
    if isDigitChar y1 && isDigitChar y2 && isDigitChar y3 && isDigitChar y4 && h1 == '-' &&
       isDigitChar m1 && isDigitChar m2 && h2 == '-' && isDigitChar d1 && isDigitChar d2 then
      some (digitsToNat [y1, y2, y3, y4], digitsToNat [m1, m2], digitsToNat [d1, d2])
    else none
  | _ => none

/-- Component validity of a parsed date, matching the ISO date validation of
the JavaScript `Date` parser on `YYYY-MM-DD` strings. -/
def validYMD (y m d : Nat) : Bool :=
  1 ≤ m && m ≤ 12 && 1 ≤ d && d ≤ daysInMonth y m

/-- Mirrors `isValidDate`: the string must match the anchored pattern
`\d{4}-\d{2}-\d{2}` and `new Date(s)` must parse it to a valid date, which
for strings of that shape is exactly the component range check. -/
def isValidDate (s : String) : Bool :=
  match dateParts s with
  | some (y, m, d) => validYMD y m d
  | none => false

/-- Two-digit zero-padded decimal rendering, as in an ISO date. -/
def pad2 (n : Nat) : List Char := [Nat.digitChar (n / 10), Nat.digitChar (n % 10)]

/-- Four-digit zero-padded decimal rendering, as in an ISO year. -/
def pad4 (n : Nat) : List Char := pad2 (n / 100) ++ pad2 (n % 100)

/-- The `YYYY-MM-DD` rendering used by `toISOString().split('T')[0]`. -/
def renderDate (y m d : Nat) : String := ⟨pad4 y ++ '-' :: (pad2 m ++ '-' :: pad2 d)⟩

/-- Mirrors `formatDateString`: parse with the UTC `Date` parser and render
the date part of `toISOString()`.  For the strings it is actually applied
to (those passing `isValidDate`) this re-renders the same `YYYY-MM-DD`
text; on a non-matching string the JavaScript original would throw, a
situation the caller rules out, and the model returns `""`. -/
def formatDateString (s : String) : String :=
  match dateParts s with
  | some (y, m, d) => renderDate y m d
  | none => ""

/-- The typed record produced for every raw row, mirroring the `InvoiceData`
interface of the source. -/
structure InvoiceData where
  invoiceId : String
  sellerId : String
  debtorId : String
  currency : String
  amount : JsNum
  product : String
  issueDate : String
  dueDate : String
  isValid : Bool
  validationErrors : List String
deriving DecidableEq, Repr

/-- Error message of the UUID rules of `validateInvoiceData`. -/
def uuidErr (field : String) (rowNumber : Nat) : String :=
  s!"Row {rowNumber}: Invalid or missing {field} (must be UUID format)"

/-- The currency list as joined into the currency error message. -/
def currencyListText : String := String.intercalate ", " validCurrencies

/-- Error message of the currency rule of `validateInvoiceData`. -/
def currencyErrMsg (rowNumber : Nat) : String :=
  s!"Row {rowNumber}: Invalid currency. Must be one of: {currencyListText}"

/-- Error message of the amount rule of `validateInvoiceData`. -/
def amountErrMsg (rowNumber : Nat) : String :=
  s!"Row {rowNumber}: Invalid amount (must be positive number)"

/-- Error message of the product rule of `validateInvoiceData`. -/
def productErrMsg (rowNumber : Nat) : String :=
  s!"Row {rowNumber}: Product field is required"

/-- Error message of the two date-format rules of `validateInvoiceData`. -/
def dateErrMsg (field : String) (rowNumber : Nat) : String :=
  s!"Row {rowNumber}: Invalid {field} (must be YYYY-MM-DD format)"

/-- Error message of the cross-field date rule of `validateInvoiceData`. -/
def crossErrMsg (rowNumber : Nat) : String :=
  s!"Row {rowNumber}: Due date must be after issue date"

/-- The acceptance condition of the amount rule: `parseFloat` must not give
`NaN` and the value must not satisfy `amount <= 0`. -/
def amountOk (s : String) : Bool :=
  match parseFloatM s with
  | some v => ! jsNumLe v (.val 0)
  | none => false

/-- The acceptance condition of the three UUID rules: the field is truthy
and matches the UUID pattern. -/
def uuidFieldOk (s : String) : Bool := s != "" && isValidUUID s

/-- The acceptance condition of the currency rule: the field is truthy and
its uppercasing is in the allowlist. -/
def currencyFieldOk (s : String) : Bool :=
  s != "" && validCurrencies.contains (jsToUpper s)

/-- The acceptance condition of the product rule: truthy and non-blank
after trimming. -/
def productFieldOk (s : String) : Bool := s != "" && jsTrim s != ""

/-- The acceptance condition of the two date rules: truthy and accepted by
`isValidDate`. -/
def dateFieldOk (s : String) : Bool := s != "" && isValidDate s

/-- The date value stored in the output record: the normalized rendering on
success, the empty-string default otherwise. -/
def storedDate (s : String) : String := if dateFieldOk s then formatDateString s else ""

/-- The cross-field condition adding the `Due date must be after issue
date` error: both stored dates populated and `dueDate <= issueDate` as a
JavaScript string comparison. -/
def crossBad (row : CsvRow) : Bool :=
  storedDate (getField row "issue_date") != "" &&
  storedDate (getField row "due_date") != "" &&
  jsLe (storedDate (getField row "due_date")) (storedDate (getField row "issue_date"))

/-- The error list accumulated by `validateInvoiceData`, with the rules in
source order, each contributing its message exactly when its condition
fails. -/
def validationErrorList (row : CsvRow) (rowNumber : Nat) : List String :=
  (if uuidFieldOk (getField row "invoice_id") then [] else [uuidErr "invoice_id" rowNumber]) ++
  (if uuidFieldOk (getField row "seller_id") then [] else [uuidErr "seller_id" rowNumber]) ++
  (if uuidFieldOk (getField row "debtor_id") then [] else [uuidErr "debtor_id" rowNumber]) ++
  (if currencyFieldOk (getField row "currency") then [] else [currencyErrMsg rowNumber]) ++
  (if amountOk (getField row "amount") then [] else [amountErrMsg rowNumber]) ++
  (if productFieldOk (getField row "product") then [] else [productErrMsg rowNumber]) ++
  (if dateFieldOk (getField row "issue_date") then [] else [dateErrMsg "issue_date" rowNumber]) ++
  (if dateFieldOk (getField row "due_date") then [] else [dateErrMsg "due_date" rowNumber]) ++
  (if crossBad row then [crossErrMsg rowNumber] else [])

/-- Mirrors `validateInvoiceData`: each rule independently contributes its
error message (in source order) and populates its field only on success;
the record is valid exactly when no error accumulated, in which case the
defaults `isValid = true`, `validationErrors = []` are kept. -/
def validateInvoiceData (row : CsvRow) (rowNumber : Nat) : InvoiceData :=
  let errors := validationErrorList row rowNumber
  let base : InvoiceData := {
    invoiceId := if uuidFieldOk (getField row "invoice_id") then getField row "invoice_id" else ""
    sellerId := if uuidFieldOk (getField row "seller_id") then getField row "seller_id" else ""
    debtorId := if uuidFieldOk (getField row "debtor_id") then getField row "debtor_id" else ""
    currency := if currencyFieldOk (getField row "currency") then jsToUpper (getField row "currency") else ""
    amount := if amountOk (getField row "amount") then (parseFloatM (getField row "amount")).getD (.val 0) else .val 0
    product := if productFieldOk (getField row "product") then jsTrim (getField row "product") else ""
    issueDate := storedDate (getField row "issue_date")
    dueDate := storedDate (getField row "due_date")
    isValid := true
    validationErrors := [] }
  if errors.length > 0 then
    { base with isValid := false, validationErrors := errors }
  else
    base

/-- The batch size constant of the importer (`const batchSize = 25`). -/
def batchSize : Nat := 25

/-- The partition of the row list into import batches performed by the loop
`for (let i = 0; i < invoiceData.length; i += batchSize)` taking
`invoiceData.slice(i, i + batchSize)` with `batchSize = 25`. -/
def chunks25 {α : Type} : List α → List (List α)
  | [] => []
  | x :: xs => (x :: xs).take 25 :: chunks25 (xs.drop 24)
termination_by l => l.length
decreasing_by
  simp only [List.length_cons, List.length_drop]
  omega

/-- Outcome of one backend `create` call for a valid row: success, a
rejection carrying error messages, or a thrown exception message. -/
inductive BackendResult
  | ok
  | errs (msgs : List String)
  | exn (msg : String)
deriving DecidableEq, Repr

/-- One entry of `allErrors`, mirroring the `ProcessingError` interface;
`invoice_id` is absent for a row that failed validation. -/
structure ProcessingError where
  row : Nat
  invoice_id : Option String
  errors : List String
deriving DecidableEq, Repr

/-- The per-row body of `batchPromises`: an invalid row is counted failed
with its validation errors; for a valid row the backend create is issued,
failing with the backend's error messages or with the exception message. -/
def rowOutcome (backend : Nat → BackendResult) (globalIndex : Nat) (inv : InvoiceData) :
    Bool × List ProcessingError :=
  if !inv.isValid then
    (false, [{ row := globalIndex, invoice_id := none, errors := inv.validationErrors }])
  else
    match backend globalIndex with
    | .ok => (true, [])
    | .errs msgs =>
      (false, [{ row := globalIndex, invoice_id := some inv.invoiceId, errors := msgs }])
    | .exn msg =>
      (false, [{ row := globalIndex, invoice_id := some inv.invoiceId, errors := [msg] }])

/-- The three mutable accumulators of the batch loop. -/
structure ImportStats where
  successfulCount : Nat
  failedCount : Nat
  allErrors : List ProcessingError
deriving DecidableEq, Repr

/-- Accumulation of `successfulCount`, `failedCount` and `allErrors` over
the rows, the head row carrying global row number `i`.  The batch
boundaries do not affect these accumulators: the loop visits every row of
every batch exactly once, in list order, with `globalIndex = i + index + 1`
running through `1..n`. -/
def statsFrom (backend : Nat → BackendResult) : Nat → List InvoiceData → ImportStats
  | _, [] => ⟨0, 0, []⟩
  | i, inv :: rest =>
    let o := rowOutcome backend i inv
    let s := statsFrom backend (i + 1) rest
    if o.1 then ⟨s.successfulCount + 1, s.failedCount, o.2 ++ s.allErrors⟩
    else ⟨s.successfulCount, s.failedCount + 1, o.2 ++ s.allErrors⟩

/-- The statistics after all batches of an import run over `rows`. -/
def importStats (backend : Nat → BackendResult) (rows : List InvoiceData) : ImportStats :=
  statsFrom backend 1 rows

/-- Lifecycle status values of an `InvoiceUploadJob`. -/
inductive JobStatus
  | PENDING
  | PROCESSING
  | COMPLETED
  | FAILED
deriving DecidableEq, Repr

/-- Mirrors the final status expression
`failedCount === 0 ? 'COMPLETED' : (successfulCount === 0 ? 'FAILED' : 'COMPLETED')`. -/
def finalStatus (s : ImportStats) : JobStatus :=
  if s.failedCount = 0 then .COMPLETED
  else if s.successfulCount = 0 then .FAILED
  else .COMPLETED

/-- Mirrors the truncated error summary: the failure count plus the first
three failures, each abbreviated to its row number and first error message
(an empty message list would interpolate as the text `undefined`). -/
def errorSummary (allErrors : List ProcessingError) : Option String :=
  if allErrors.length > 0 then
    some (toString allErrors.length ++ " validation errors. Sample: " ++
      String.intercalate "; " ((allErrors.take 3).map (fun e =>
        "Row " ++ toString e.row ++ ": " ++ e.errors.headD "undefined")))
  else none

/-- The fields of the single job update issued after all batches complete. -/
structure JobFinalUpdate where
  status : JobStatus
  totalInvoices : Nat
  successfulInvoices : Nat
  failedInvoices : Nat
  errorMessage : Option String
deriving DecidableEq, Repr

/-- Mirrors the `updateData` payload built by `processInvoiceFile` after the
batch loop. -/
def jobFinalUpdate (backend : Nat → BackendResult) (rows : List InvoiceData) :
    JobFinalUpdate :=
  let s := importStats backend rows
  { status := finalStatus s
    totalInvoices := rows.length
    successfulInvoices := s.successfulCount
    failedInvoices := s.failedCount
    errorMessage := errorSummary s.allErrors }

/-- One write to the `InvoiceUploadJob` record issued by
`processInvoiceFile`: the `create` call made before any row is parsed, the
final update made after all batches, or the failure-path update of the
`catch` handler, which writes status, error message and completion
timestamp but none of the three count fields. -/
inductive JobWrite
  | create (status : JobStatus) (totalInvoices successfulInvoices failedInvoices : Nat)
  | finalUpdate (u : JobFinalUpdate)
  | failureUpdate (status : JobStatus) (errorMessage : String)
deriving DecidableEq, Repr

/-- Whether a job write carries the three invoice-count fields in its
payload. -/
def JobWrite.writesCounts : JobWrite → Bool
  | .create _ _ _ _ => true
  | .finalUpdate _ => true
  | .failureUpdate _ _ => false

/-- Whether a job write is the completion-time update issued after all
batches finish. -/
def JobWrite.isCompletionUpdate : JobWrite → Bool
  | .finalUpdate _ => true
  | _ => false

/-- The sequence of job-record writes issued by one run of
`processInvoiceFile`.  `parsed = some rows` is the path on which download
and parsing succeeded; `parsed = none` is the path on which
`downloadAndParseFile` threw after job creation, so the `catch` handler
issues the failure update carrying the exception message `errMsg`. -/
def jobWriteTrace (backend : Nat → BackendResult) (parsed : Option (List InvoiceData))
    (errMsg : String) : List JobWrite :=
  match parsed with
  | some rows => [.create .PROCESSING 0 0 0, .finalUpdate (jobFinalUpdate backend rows)]
  | none => [.create .PROCESSING 0 0 0, .failureUpdate .FAILED errMsg]

/-- Observable scheduling events of the batch loop: `issue b r` is the
dispatch of the create promise of global row `r` inside batch `b`, and
`settled b` is the return of `Promise.allSettled` for batch `b`
(batches numbered from 1). -/
inductive ImportEvent
  | issue (batch : Nat) (row : Nat)
  | settled (batch : Nat)
deriving DecidableEq, Repr

/-- The batch number an event belongs to. -/
def ImportEvent.batchOf : ImportEvent → Nat
  | .issue b _ => b
  | .settled b => b

/-- Trace of the batch loop over the listed global row numbers, already
partitioned into batches, the first batch carrying number `b`: all creates
of a batch are dispatched, then the batch settles, and only then does the
next batch start. -/
def traceFrom (b : Nat) : List (List Nat) → List ImportEvent
  | [] => []
  | batch :: rest =>
    batch.map (ImportEvent.issue b) ++ [ImportEvent.settled b] ++ traceFrom (b + 1) rest

/-- The full scheduling trace of an import of `n` rows (global row numbers
`1..n`). -/
def importTrace (n : Nat) : List ImportEvent :=
  traceFrom 1 (chunks25 (List.range' 1 n))

/-- Mirrors `String.prototype.toLowerCase` on the ASCII fragment. -/
def jsToLower (s : String) : String := ⟨s.data.map Char.toLower⟩

/-- Mirrors `String.prototype.endsWith`. -/
def jsEndsWith (s suffix : String) : Bool := List.isSuffixOf suffix.data s.data

/-- Mirrors the filter predicate `/\.(csv|xlsx)$/i.test(file.name)` of
`handleFileSelect`: the name must end, case-insensitively, in `.csv` or in
`.xlsx`. -/
def isInvoiceFileName (name : String) : Bool :=
  jsEndsWith (jsToLower name) ".csv" || jsEndsWith (jsToLower name) ".xlsx"

/-- Result of the extension gate of `handleFileSelect`: either the whole
selection is rejected with a single user-facing error and nothing is
uploaded, or every selected file proceeds to upload. -/
inductive SelectOutcome
  | rejected (errorMessage : String)
  | accepted (files : List String)
deriving DecidableEq, Repr

/-- Mirrors the extension gate of `handleFileSelect`: filter the selected
names, reject the whole batch if nothing passes or if anything was
filtered out, and otherwise proceed with every selected file. -/
def handleFileSelect (names : List String) : SelectOutcome :=
  let invoiceFiles := names.filter isInvoiceFileName
  if invoiceFiles.length = 0 then
    .rejected "Please select CSV or Excel files containing invoice data"
  else if invoiceFiles.length ≠ names.length then
    .rejected "Only CSV and Excel files are supported for invoice processing"
  else
    .accepted invoiceFiles

/-- An invoice record as read back during cascade deletion: its database id
and its optional stored PDF key. -/
structure StoredInvoice where
  id : String
  pdfS3Key : Option String
deriving DecidableEq, Repr

/-- An upload job together with the invoice records the store returns for
its `uploadJobId`. -/
structure StoredJob where
  id : String
  invoices : List StoredInvoice
deriving DecidableEq, Repr

/-- A deletion issued during the cascade of `handleDeleteFile`. -/
inductive DelOp
  | pdfDelete (path : String)
  | invoiceDelete (id : String)
  | jobDelete (id : String)
  | fileDelete (path : String)
deriving DecidableEq, Repr

/-- Result of a cascade: the deletions issued, in issuing order, and the
error raised by the first thrown failure, if any. -/
structure CascadeResult where
  ops : List DelOp
  error : Option String
deriving DecidableEq, Repr

/-- The aggregate error thrown when some invoice deletions of the cascade
fail, naming how many of the job's records could not be deleted. -/
def cascadeErrMsg (invoiceFailed total : Nat) : String :=
  s!"Failed to delete {invoiceFailed} out of {total} invoices"

/-- The body of the per-job loop of `handleDeleteFile`: the PDF deletes are
issued one by one for the invoices holding a key (a failure there is
caught and the loop continues, so the issued operations do not depend on
the PDF outcome oracle `pdfOk`); then every invoice delete is issued and
awaited together, and if any failed the loop throws the aggregate error
naming the failure count; otherwise the job delete is issued, throwing on
failure (the model keeps the constant prefix of that message, the suffix
being backend-provided text). -/
def deleteJobCascade (pdfOk : String → Bool) (invOk : String → Bool)
    (jobOk : String → Bool) (job : StoredJob) : List DelOp × Option String :=
  let pdfOps := (job.invoices.filter (fun v => v.pdfS3Key.isSome)).map
    (fun v => DelOp.pdfDelete (v.pdfS3Key.getD ""))
  let invOps := job.invoices.map (fun v => DelOp.invoiceDelete v.id)
  let invoiceFailed := (job.invoices.filter (fun v => ! invOk v.id)).length
  if invoiceFailed > 0 then
    (pdfOps ++ invOps, some (cascadeErrMsg invoiceFailed job.invoices.length))
  else if jobOk job.id then
    (pdfOps ++ invOps ++ [DelOp.jobDelete job.id], none)
  else
    (pdfOps ++ invOps ++ [DelOp.jobDelete job.id], some "Failed to delete processing job")

/-- Sequential processing of the associated jobs of `handleDeleteFile`:
the first thrown error aborts the remainder of the cascade. -/
def cascadeJobs (pdfOk invOk jobOk : String → Bool) : List StoredJob → List DelOp × Option String
  | [] => ([], none)
  | job :: rest =>
    let r := deleteJobCascade pdfOk invOk jobOk job
    match r.2 with
    | some e => (r.1, some e)
    | none =>
      let rs := cascadeJobs pdfOk invOk jobOk rest
      (r.1 ++ rs.1, rs.2)

/-- Mirrors `handleDeleteFile` after user confirmation: process every
associated job in order, aborting at the first thrown error; only when
every job cascade succeeded is the stored file itself deleted. -/
def handleDeleteFile (pdfOk invOk jobOk : String → Bool) (jobs : List StoredJob)
    (filePath : String) : CascadeResult :=
  let r := cascadeJobs pdfOk invOk jobOk jobs
  match r.2 with
  | some e => { ops := r.1, error := some e }
  | none => { ops := r.1 ++ [DelOp.fileDelete filePath], error := none }

/-- An `Invoice` record with the fields of the data-model schema. -/
structure InvoiceRec where
  id : String
  invoiceId : String
  sellerId : String
  debtorId : String
  currency : String
  amount : JsNum
  product : String
  issueDate : String
  dueDate : String
  uploadDate : String
  uploadJobId : String
  isValid : Bool
  validationErrors : List String
  pdfS3Key : Option String
  pdfFileName : Option String
  pdfUploadedAt : Option String
  pdfS3FullPath : Option String
deriving DecidableEq, Repr

/-- An object-storage operation; `handlePdfDelete` issues none. -/
inductive StorageOp
  | remove (path : String)
deriving DecidableEq, Repr

/-- Mirrors `handlePdfDelete` after user confirmation: guarded on the
record holding a non-empty PDF key and an id, it issues a single record
update nulling `pdfS3Key`, `pdfS3FullPath`, `pdfFileName` and
`pdfUploadedAt`, and deliberately issues no object-storage deletion, so
the stored bytes remain. -/
def handlePdfDelete (inv : InvoiceRec) : Option (InvoiceRec × List StorageOp) :=
  match inv.pdfS3Key with
  | none => none
  | some k =>
    if k = "" ∨ inv.id = "" then none
    else
      some ({ inv with
                pdfS3Key := none
                pdfS3FullPath := none
                pdfFileName := none
                pdfUploadedAt := none }, [])

/-- Number of rows of the list whose create succeeds, the head row carrying
global row number `i`: the reference count of `successfulCount`. -/
def countSuccFrom (backend : Nat → BackendResult) : Nat → List InvoiceData → Nat
  | _, [] => 0
  | i, inv :: rest =>
    (if (rowOutcome backend i inv).1 then 1 else 0) + countSuccFrom backend (i + 1) rest

/-- Number of rows of the list whose processing fails (validation failure
or backend failure), the head row carrying global row number `i`: the
reference count of `failedCount`. -/
def countFailFrom (backend : Nat → BackendResult) : Nat → List InvoiceData → Nat
  | _, [] => 0
  | i, inv :: rest =>
    (if (rowOutcome backend i inv).1 then 0 else 1) + countFailFrom backend (i + 1) rest

/-- A raw row whose eight fields all pass validation except that the amount
text is the literal `Infinity`, which `parseFloat` parses to the positive
infinite value. -/
def exRowInfinity : CsvRow :=
  [("invoice_id", "123e4567-e89b-12d3-a456-426614174000"),
   ("seller_id", "123e4567-e89b-12d3-a456-426614174000"),
   ("debtor_id", "123e4567-e89b-12d3-a456-426614174000"),
   ("currency", "usd"),
   ("amount", "Infinity"),
   ("product", "Widget"),
   ("issue_date", "2024-01-15"),
   ("due_date", "2024-02-01")]

/-- A concrete stored invoice record carrying a PDF attachment, used to
exercise `handlePdfDelete`. -/
def exInvoiceRec : InvoiceRec :=
  { id := "rec-1"
    invoiceId := "123e4567-e89b-12d3-a456-426614174000"
    sellerId := "223e4567-e89b-12d3-a456-426614174000"
    debtorId := "323e4567-e89b-12d3-a456-426614174000"
    currency := "USD"
    amount := .val 100
    product := "Widget"
    issueDate := "2024-01-15"
    dueDate := "2024-02-01"
    uploadDate := "2024-01-20"
    uploadJobId := "job-1"
    isValid := true
    validationErrors := []
    pdfS3Key := some "user-files/u1/invoices/a.pdf"
    pdfFileName := some "a.pdf"
    pdfUploadedAt := some "2024-01-21T00:00:00Z"
    pdfS3FullPath := some "bucket/user-files/u1/invoices/a.pdf" }

/-- A concrete job with five invoice records, two of which carry a PDF
attachment, used to exercise the cascade deletion. -/
def exJob : StoredJob :=
  { id := "job-1"
    invoices :=
      [{ id := "i1", pdfS3Key := some "p1.pdf" },
       { id := "i2", pdfS3Key := none },
       { id := "i3", pdfS3Key := some "p3.pdf" },
       { id := "i4", pdfS3Key := none },
       { id := "i5", pdfS3Key := none }] }

/-- A concrete fully valid typed invoice record. -/
def exInvoiceOk : InvoiceData :=
  { invoiceId := "123e4567-e89b-12d3-a456-426614174000"
    sellerId := "223e4567-e89b-12d3-a456-426614174000"
    debtorId := "323e4567-e89b-12d3-a456-426614174000"
    currency := "USD"
    amount := .val 100
    product := "Widget"
    issueDate := "2024-01-15"
    dueDate := "2024-02-01"
    isValid := true
    validationErrors := [] }

/-- A concrete invalid typed invoice record carrying one validation
error. -/
def exInvoiceBad : InvoiceData :=
  { invoiceId := ""
    sellerId := ""
    debtorId := ""
    currency := ""
    amount := .val 0
    product := ""
    issueDate := ""
    dueDate := ""
    isValid := false
    validationErrors := ["Row 3: Invalid amount (must be positive number)"] }

/-- A raw row whose eight fields all pass validation, with an ordinary
finite amount. -/
def exRowValid : CsvRow :=
  [("invoice_id", "123e4567-e89b-12d3-a456-426614174000"),
   ("seller_id", "123e4567-e89b-12d3-a456-426614174000"),
   ("debtor_id", "123e4567-e89b-12d3-a456-426614174000"),
   ("currency", "eur"),
   ("amount", "100.50"),
   ("product", "Widget"),
   ("issue_date", "2024-01-15"),
   ("due_date", "2024-02-01")]

/-- A raw row whose two dates both parse but violate the cross-field rule:
the due date is not after the issue date. -/
def exRowBadDates : CsvRow :=
  [("invoice_id", "123e4567-e89b-12d3-a456-426614174000"),
   ("seller_id", "123e4567-e89b-12d3-a456-426614174000"),
   ("debtor_id", "123e4567-e89b-12d3-a456-426614174000"),
   ("currency", "usd"),
   ("amount", "10"),
   ("product", "Widget"),
   ("issue_date", "2024-02-01"),
   ("due_date", "2024-01-15")]

/-! ## Lemmas about the row validator -/

theorem validationErrors_eq (row : CsvRow) (n : Nat) :
    (validateInvoiceData row n).validationErrors = validationErrorList row n := by
  by_cases hL : validationErrorList row n = []
  · simp only [validateInvoiceData]
    rw [if_neg (by simp [hL])]
    simp [hL]
  · simp only [validateInvoiceData]
    rw [if_pos (List.length_pos.mpr hL)]

theorem isValid_true_iff (row : CsvRow) (n : Nat) :
    (validateInvoiceData row n).isValid = true ↔ validationErrorList row n = [] := by
  by_cases hL : validationErrorList row n = []
  · simp only [validateInvoiceData]
    rw [if_neg (by simp [hL])]
    simp [hL]
  · simp only [validateInvoiceData]
    rw [if_pos (List.length_pos.mpr hL)]
    simp [hL]

theorem validate_amount_eq (row : CsvRow) (n : Nat) :
    (validateInvoiceData row n).amount =
      (if amountOk (getField row "amount") then
        (parseFloatM (getField row "amount")).getD (.val 0)
      else .val 0) := by
  by_cases hL : validationErrorList row n = []
  · simp only [validateInvoiceData]
    rw [if_neg (by simp [hL])]
  · simp only [validateInvoiceData]
    rw [if_pos (List.length_pos.mpr hL)]

theorem validate_issueDate_eq (row : CsvRow) (n : Nat) :
    (validateInvoiceData row n).issueDate = storedDate (getField row "issue_date") := by
  by_cases hL : validationErrorList row n = []
  · simp only [validateInvoiceData]
    rw [if_neg (by simp [hL])]
  · simp only [validateInvoiceData]
    rw [if_pos (List.length_pos.mpr hL)]

theorem validate_dueDate_eq (row : CsvRow) (n : Nat) :
    (validateInvoiceData row n).dueDate = storedDate (getField row "due_date") := by
  by_cases hL : validationErrorList row n = []
  · simp only [validateInvoiceData]
    rw [if_neg (by simp [hL])]
  · simp only [validateInvoiceData]
    rw [if_pos (List.length_pos.mpr hL)]

/-! ## Claim C2: validity flag agrees with the error list -/

/-- C2: for every raw row and row number, the record returned by
`validateInvoiceData` satisfies `isValid = true` exactly when its
`validationErrors` list is empty, and when `isValid = false` the list
holds at least one error message. -/
theorem claim_C2_isValid_iff_no_errors (row : CsvRow) (n : Nat) :
    ((validateInvoiceData row n).isValid = true ↔
      (validateInvoiceData row n).validationErrors = []) ∧
    ((validateInvoiceData row n).isValid = false →
      (validateInvoiceData row n).validationErrors ≠ []) := by
  constructor
  · rw [validationErrors_eq]
    exact isValid_true_iff row n
  · intro hv
    rw [validationErrors_eq]
    intro hL
    have hvalid := (isValid_true_iff row n).mpr hL
    rw [hv] at hvalid
    exact Bool.false_ne_true hvalid

/-- Witness for C2 at a concrete input: the empty raw row is invalid and
carries a non-empty error list. -/
theorem claim_C2_witness :
    (validateInvoiceData [] 2).isValid = false ∧
    (validateInvoiceData [] 2).validationErrors ≠ [] :=
  ⟨by decide, (claim_C2_isValid_iff_no_errors [] 2).2 (by decide)⟩

/-! ## Claim C10: PDF detachment is a pure record update -/

/-- C10: `handlePdfDelete` on a record holding a PDF key and an id nulls
exactly the four PDF reference fields, leaves every other field unchanged,
and issues no object-storage deletion, so the PDF bytes remain in
storage. -/
theorem claim_C10_pdf_delete_frame (inv : InvoiceRec) (k : String)
    (hk : inv.pdfS3Key = some k) (hke : k ≠ "") (hid : inv.id ≠ "") :
    ∃ inv2 : InvoiceRec,
      handlePdfDelete inv = some (inv2, ([] : List StorageOp)) ∧
      inv2.pdfS3Key = none ∧ inv2.pdfS3FullPath = none ∧
      inv2.pdfFileName = none ∧ inv2.pdfUploadedAt = none ∧
      inv2.id = inv.id ∧ inv2.invoiceId = inv.invoiceId ∧
      inv2.sellerId = inv.sellerId ∧ inv2.debtorId = inv.debtorId ∧
      inv2.currency = inv.currency ∧ inv2.amount = inv.amount ∧
      inv2.product = inv.product ∧ inv2.issueDate = inv.issueDate ∧
      inv2.dueDate = inv.dueDate ∧ inv2.uploadDate = inv.uploadDate ∧
      inv2.uploadJobId = inv.uploadJobId ∧ inv2.isValid = inv.isValid ∧
      inv2.validationErrors = inv.validationErrors := by
  have h : handlePdfDelete inv =
      some ({ inv with
                pdfS3Key := none
                pdfS3FullPath := none
                pdfFileName := none
                pdfUploadedAt := none }, []) := by
    simp [handlePdfDelete, hk, hke, hid]
  exact ⟨_, h, rfl, rfl, rfl, rfl, rfl, rfl, rfl, rfl, rfl, rfl, rfl, rfl, rfl,
    rfl, rfl, rfl, rfl⟩

/-- Witness for C10 at a concrete record with an attachment. -/
theorem claim_C10_witness :
    ∃ inv2 : InvoiceRec,
      handlePdfDelete exInvoiceRec = some (inv2, ([] : List StorageOp)) ∧
      inv2.pdfS3Key = none ∧ inv2.pdfS3FullPath = none ∧
      inv2.pdfFileName = none ∧ inv2.pdfUploadedAt = none ∧
      inv2.id = exInvoiceRec.id ∧ inv2.invoiceId = exInvoiceRec.invoiceId ∧
      inv2.sellerId = exInvoiceRec.sellerId ∧ inv2.debtorId = exInvoiceRec.debtorId ∧
      inv2.currency = exInvoiceRec.currency ∧ inv2.amount = exInvoiceRec.amount ∧
      inv2.product = exInvoiceRec.product ∧ inv2.issueDate = exInvoiceRec.issueDate ∧
      inv2.dueDate = exInvoiceRec.dueDate ∧ inv2.uploadDate = exInvoiceRec.uploadDate ∧
      inv2.uploadJobId = exInvoiceRec.uploadJobId ∧ inv2.isValid = exInvoiceRec.isValid ∧
      inv2.validationErrors = exInvoiceRec.validationErrors :=
  claim_C10_pdf_delete_frame exInvoiceRec "user-files/u1/invoices/a.pdf"
    (by decide) (by decide) (by decide)

/-! ## Claim C4: the upload extension filter -/

/-- Counterexample to C4 as stated: a file named `report.xls` ends in
`.xls`, yet it does not pass the filter `/\.(csv|xlsx)$/i` of
`handleFileSelect`; selecting only that file rejects the batch with the
no-valid-files error and nothing is uploaded. -/
theorem claim_C4_counterexample :
    isInvoiceFileName "report.xls" = false ∧
    handleFileSelect ["report.xls"] =
      .rejected "Please select CSV or Excel files containing invoice data" := by
  exact ⟨by decide, by decide⟩

/-- C4 amended: a file passes the extension filter exactly when its name
ends case-insensitively in `.csv` or `.xlsx` — `.xls` is offered by the
file picker but rejected by the filter; the batch proceeds exactly when it
is non-empty and every selected file passes, and whenever any selected
file fails the filter the whole batch is rejected with a single
user-facing error and nothing is uploaded. -/
theorem claim_C4_extension_filter (names : List String) :
    (∀ name, isInvoiceFileName name =
      (jsEndsWith (jsToLower name) ".csv" || jsEndsWith (jsToLower name) ".xlsx")) ∧
    (handleFileSelect names = .accepted names ↔
      names ≠ [] ∧ ∀ f ∈ names, isInvoiceFileName f = true) ∧
    (∀ f ∈ names, isInvoiceFileName f = false →
      ∃ msg, handleFileSelect names = .rejected msg) := by
  refine ⟨fun _ => rfl, ⟨?_, ?_⟩, ?_⟩
  · intro h
    simp only [handleFileSelect] at h
    by_cases h0 : (names.filter isInvoiceFileName).length = 0
    · rw [if_pos h0] at h
      cases h
    · rw [if_neg h0] at h
      by_cases h1 : (names.filter isInvoiceFileName).length ≠ names.length
      · rw [if_pos h1] at h
        cases h
      · push_neg at h1
        have hfilter : names.filter isInvoiceFileName = names :=
          (List.filter_sublist names).eq_of_length h1
        refine ⟨?_, ?_⟩
        · intro hnil
          subst hnil
          simp at h0
        · intro f hf
          have hf2 : f ∈ names.filter isInvoiceFileName := by
            rw [hfilter]; exact hf
          exact List.of_mem_filter hf2
  · rintro ⟨hne, hall⟩
    have hfilter : names.filter isInvoiceFileName = names :=
      List.filter_eq_self.mpr hall
    simp only [handleFileSelect, hfilter]
    rw [if_neg (by simp [List.length_eq_zero, hne]), if_neg (by simp)]
  · intro f hf hff
    by_cases h0 : (names.filter isInvoiceFileName).length = 0
    · exact ⟨_, by simp only [handleFileSelect]; rw [if_pos h0]⟩
    · have h1 : (names.filter isInvoiceFileName).length ≠ names.length := by
        intro heq
        have hfilter : names.filter isInvoiceFileName = names :=
          (List.filter_sublist names).eq_of_length heq
        have hf2 : f ∈ names.filter isInvoiceFileName := by
          rw [hfilter]; exact hf
        have := List.of_mem_filter hf2
        rw [hff] at this
        exact Bool.false_ne_true this
      exact ⟨_, by simp only [handleFileSelect]; rw [if_neg h0, if_pos h1]⟩

/-- Witness for C4 at concrete inputs: a clean selection of a `.csv` and an
uppercase `.XLSX` file is accepted whole. -/
theorem claim_C4_witness :
    handleFileSelect ["a.csv", "b.XLSX"] = .accepted ["a.csv", "b.XLSX"] :=
  (claim_C4_extension_filter ["a.csv", "b.XLSX"]).2.1.mpr ⟨by decide, by decide⟩

/-! ## Claim C7: the amount rule -/

/-- Counterexample to C7 as stated: the amount text `Infinity` parses to
the non-finite positive infinity and yet the row is accepted as fully
valid with that infinite amount stored, so a non-finite value is accepted
by the validator. -/
theorem claim_C7_counterexample :
    parseFloatM (getField exRowInfinity "amount") = some JsNum.posInf ∧
    (∀ q : ℚ, JsNum.posInf ≠ JsNum.val q) ∧
    (validateInvoiceData exRowInfinity 2).isValid = true ∧
    (validateInvoiceData exRowInfinity 2).amount = JsNum.posInf := by
  exact ⟨by decide, fun q h => JsNum.noConfusion h, by decide, by decide⟩

/-- C7 amended: the amount is accepted exactly when `parseFloat` yields a
non-`NaN` value strictly greater than zero — a condition the non-finite
`Infinity` also satisfies; `0`, `-5` and `abc` are rejected and `0.01` is
accepted.  On rejection the amount error is recorded, the record is
invalid and the amount keeps the zero default; on acceptance the parsed
value is stored. -/
theorem claim_C7_amount_rule (row : CsvRow) (n : Nat) :
    (amountOk (getField row "amount") = true ↔
      ∃ v, parseFloatM (getField row "amount") = some v ∧
        jsNumLt (.val 0) v = true) ∧
    (amountOk (getField row "amount") = false →
      (validateInvoiceData row n).isValid = false ∧
      amountErrMsg n ∈ (validateInvoiceData row n).validationErrors ∧
      (validateInvoiceData row n).amount = .val 0) ∧
    (amountOk (getField row "amount") = true →
      parseFloatM (getField row "amount") = some (validateInvoiceData row n).amount ∧
      jsNumLt (.val 0) (validateInvoiceData row n).amount = true) ∧
    amountOk "0" = false ∧ amountOk "-5" = false ∧ amountOk "abc" = false ∧
    amountOk "0.01" = true ∧ amountOk "Infinity" = true := by
  refine ⟨?_, ?_, ?_, by decide, by decide, by decide, by decide, by decide⟩
  · unfold amountOk
    cases hp : parseFloatM (getField row "amount") with
    | none => simp
    | some v =>
      simp only [Option.some.injEq]
      constructor
      · intro hgt
        exact ⟨v, rfl, hgt⟩
      · rintro ⟨v2, hv2, hgt⟩
        subst hv2
        exact hgt
  · intro h
    have hmem : amountErrMsg n ∈ validationErrorList row n := by
      simp [validationErrorList, h]
    refine ⟨?_, ?_, ?_⟩
    · cases hval : (validateInvoiceData row n).isValid with
      | false => rfl
      | true =>
        have := (isValid_true_iff row n).mp hval
        rw [this] at hmem
        cases hmem
    · rw [validationErrors_eq]
      exact hmem
    · rw [validate_amount_eq, if_neg (by simp [h])]
  · intro h
    have hp : ∃ v, parseFloatM (getField row "amount") = some v := by
      unfold amountOk at h
      cases hp : parseFloatM (getField row "amount") with
      | none => rw [hp] at h; cases h
      | some v => exact ⟨v, rfl⟩
    obtain ⟨v, hv⟩ := hp
    have hamt : (validateInvoiceData row n).amount = v := by
      rw [validate_amount_eq, if_pos h, hv]
      rfl
    refine ⟨by rw [hamt]; exact hv, ?_⟩
    rw [hamt]
    unfold amountOk at h
    rw [hv] at h
    exact h

/-- Witness for C7 at a concrete input: the accepted `Infinity` amount is
stored as the positive infinite value. -/
theorem claim_C7_witness :
    parseFloatM (getField exRowInfinity "amount") =
      some (validateInvoiceData exRowInfinity 2).amount ∧
    jsNumLt (.val 0) (validateInvoiceData exRowInfinity 2).amount = true :=
  (claim_C7_amount_rule exRowInfinity 2).2.2.1 (by decide)

/-! ## Claim C9: when the job count fields are written -/

/-- Counterexample to C9 as stated: the very first job-record write — the
creation issued before any row is parsed — already carries the three
count fields, initialized to zero, so the counts are written at a point
of the job lifecycle strictly earlier than completion. -/
theorem claim_C9_counterexample :
    (jobWriteTrace (fun _ => .ok) (some []) "boom").head? =
      some (.create .PROCESSING 0 0 0) ∧
    (JobWrite.create .PROCESSING 0 0 0).writesCounts = true ∧
    (JobWrite.create .PROCESSING 0 0 0).isCompletionUpdate = false := by
  exact ⟨rfl, rfl, rfl⟩

/-- C9 amended: the count fields are initialized to zero by the creation
write issued before any row is parsed; after creation they are written at
most once, namely by the completion update, and the failure-path update
does not write them. -/
theorem claim_C9_counts_written_once (backend : Nat → BackendResult)
    (parsed : Option (List InvoiceData)) (errMsg : String) :
    (jobWriteTrace backend parsed errMsg).head? = some (.create .PROCESSING 0 0 0) ∧
    (jobWriteTrace backend parsed errMsg).tail.countP (fun w => w.writesCounts) ≤ 1 ∧
    (∀ w ∈ (jobWriteTrace backend parsed errMsg).tail,
      w.writesCounts = true → w.isCompletionUpdate = true) := by
  cases parsed <;>
    simp [jobWriteTrace, JobWrite.writesCounts, JobWrite.isCompletionUpdate,
      List.countP_cons]

/-- Witness for C9 at a concrete input: the completion update is the one
post-creation write of the counts. -/
theorem claim_C9_witness :
    (JobWrite.finalUpdate (jobFinalUpdate (fun _ => .ok) [])).isCompletionUpdate = true :=
  (claim_C9_counts_written_once (fun _ => .ok) (some []) "x").2.2
    (.finalUpdate (jobFinalUpdate (fun _ => .ok) [])) (by decide) (by decide)

/-! ## Claim C8: the CSV parser -/

theorem setField_fresh (r : CsvRow) (k v : String) (h : ∀ p ∈ r, p.1 ≠ k) :
    setField r k v = r ++ [(k, v)] := by
  unfold setField
  rw [if_neg]
  simp only [List.any_eq_true, beq_iff_eq, not_exists]
  intro p
  simp only [not_and]
  intro hp
  exact h p hp

theorem buildRow_foldl (values : List String) (l : List (Nat × String)) :
    ∀ acc : CsvRow,
      (l.map Prod.snd).Nodup →
      (∀ p ∈ l, ∀ q ∈ acc, q.1 ≠ p.2) →
      l.foldl (fun r p => setField r p.2 (values.getD p.1 "")) acc =
        acc ++ l.map (fun p => (p.2, values.getD p.1 "")) := by
  induction l with
  | nil =>
    intro acc _ _
    simp
  | cons p t ih =>
    intro acc hnd hdisj
    simp only [List.foldl_cons, List.map_cons]
    rw [setField_fresh acc p.2 (values.getD p.1 "")
      (fun q hq => hdisj p (List.mem_cons_self p t) q hq)]
    have hnd2 : (t.map Prod.snd).Nodup := by
      simp only [List.map_cons] at hnd
      exact hnd.of_cons
    have hnotmem : p.2 ∉ t.map Prod.snd := by
      simp only [List.map_cons, List.nodup_cons] at hnd
      exact hnd.1
    rw [ih (acc ++ [(p.2, values.getD p.1 "")]) hnd2 ?_]
    · simp
    · intro p2 hp2 q hq
      rcases List.mem_append.mp hq with hq | hq
      · exact hdisj p2 (List.mem_cons_of_mem p hp2) q hq
      · simp only [List.mem_singleton] at hq
        subst hq
        intro hcontra
        have hmem : p2.2 ∈ t.map Prod.snd := List.mem_map_of_mem Prod.snd hp2
        rw [← hcontra] at hmem
        exact hnotmem hmem

/-- Counterexample to C8 as stated: quote stripping is not limited to
surrounding quotes — the interior quote of the header field `a"b` is
removed as well, producing the header name `ab` rather than the
surrounding-quotes-only result. -/
theorem claim_C8_counterexample :
    parseCSV "a\"b,c\nx,y" = [[("ab", "x"), ("c", "y")]] ∧
    cleanField "a\"b" = "ab" ∧ "ab" ≠ "a\"b" := by
  exact ⟨by decide, by decide, by decide⟩

/-- C8 amended: the first non-blank line is the comma-delimited header
with each field trimmed of whitespace and stripped of every double-quote
character (not only surrounding ones); each subsequent line is mapped
positionally into a field-to-value record in which missing trailing
fields become the empty string; and fewer than two non-blank lines
(empty or header-only input) yield zero rows rather than an error. -/
theorem claim_C8_csv_parse (text : String) :
    (((splitOnChar '\n' text).filter (fun line => jsTrim line ≠ "")).length < 2 →
      parseCSV text = []) ∧
    (∀ header rest,
      (splitOnChar '\n' text).filter (fun line => jsTrim line ≠ "") = header :: rest →
      parseCSV text = rest.map (fun line =>
        buildRow ((splitOnChar ',' header).map cleanField)
          ((splitOnChar ',' line).map cleanField))) ∧
    (∀ headers values : List String, headers.Nodup →
      buildRow headers values = headers.enum.map (fun p => (p.2, values.getD p.1 ""))) ∧
    (∀ f, cleanField f = removeQuotes (jsTrim f)) := by
  refine ⟨?_, ?_, ?_, fun _ => rfl⟩
  · intro hlt
    simp only [parseCSV]
    cases hl : (splitOnChar '\n' text).filter (fun line => jsTrim line ≠ "") with
    | nil => rfl
    | cons a t =>
      cases t with
      | nil => rfl
      | cons b t2 =>
        rw [hl] at hlt
        simp at hlt
        omega
  · intro header rest hl
    simp only [parseCSV, hl]
    cases rest with
    | nil => rfl
    | cons b t2 => rfl
  · intro headers values hnd
    unfold buildRow
    rw [buildRow_foldl values headers.enum []
      (by rw [List.enum_map_snd]; exact hnd) (by intro p _ q hq; cases hq)]
    simp

/-- Witness for C8 at a concrete input: one header line and one data line
missing its trailing field parse to a single record with the empty-string
default. -/
theorem claim_C8_witness :
    parseCSV "h1,h2\nv1" = [[("h1", "v1"), ("h2", "")]] ∧
    buildRow ["h1", "h2"] ["v1"] = [("h1", "v1"), ("h2", "")] := by
  have h := (claim_C8_csv_parse "h1,h2\nv1").2.1 "h1,h2" ["v1"] (by decide)
  have h2 := (claim_C8_csv_parse "x").2.2.1 ["h1", "h2"] ["v1"] (by decide)
  exact ⟨by rw [h]; decide, by rw [h2]; decide⟩

/-! ## Claim C5: cascade deletion order -/

/-- C5: for a file whose associated job is found, the cascade issues all
PDF attachment deletes first (best-effort: the issued operations do not
depend on the per-attachment outcomes), then all invoice-record deletes,
then the job delete, then the stored-file delete, in that order; and if
any invoice-record deletion fails, the job and file deletions are not
issued and the aggregate error names how many of the N record deletions
failed. -/
theorem cascadeJobs_pdf_irrel (pdfOk pdfOk2 invOk jobOk : String → Bool) :
    ∀ jobs : List StoredJob,
      cascadeJobs pdfOk invOk jobOk jobs = cascadeJobs pdfOk2 invOk jobOk jobs
  | [] => rfl
  | job :: rest => by
    have hjob : deleteJobCascade pdfOk invOk jobOk job =
        deleteJobCascade pdfOk2 invOk jobOk job := rfl
    simp only [cascadeJobs, hjob, cascadeJobs_pdf_irrel pdfOk pdfOk2 invOk jobOk rest]

theorem claim_C5_cascade_order (pdfOk pdfOk2 invOk jobOk : String → Bool)
    (j : StoredJob) (jobs : List StoredJob) (filePath : String) :
    ((∀ v ∈ j.invoices, invOk v.id = true) → jobOk j.id = true →
      handleDeleteFile pdfOk invOk jobOk [j] filePath =
        { ops := ((j.invoices.filter (fun v => v.pdfS3Key.isSome)).map
            (fun v => DelOp.pdfDelete (v.pdfS3Key.getD ""))) ++
            (j.invoices.map (fun v => DelOp.invoiceDelete v.id)) ++
            [DelOp.jobDelete j.id, DelOp.fileDelete filePath]
          error := none }) ∧
    ((j.invoices.filter (fun v => ! invOk v.id)).length > 0 →
      (∀ i, DelOp.jobDelete i ∉ (handleDeleteFile pdfOk invOk jobOk [j] filePath).ops) ∧
      (∀ p, DelOp.fileDelete p ∉ (handleDeleteFile pdfOk invOk jobOk [j] filePath).ops) ∧
      (handleDeleteFile pdfOk invOk jobOk [j] filePath).error =
        some (cascadeErrMsg ((j.invoices.filter (fun v => ! invOk v.id)).length)
          j.invoices.length)) ∧
    (handleDeleteFile pdfOk invOk jobOk jobs filePath =
      handleDeleteFile pdfOk2 invOk jobOk jobs filePath) := by
  refine ⟨?_, ?_, by
    simp only [handleDeleteFile, cascadeJobs_pdf_irrel pdfOk pdfOk2 invOk jobOk jobs]⟩
  · intro hall hjob
    have hfil : j.invoices.filter (fun v => ! invOk v.id) = [] := by
      rw [List.filter_eq_nil_iff]
      intro v hv
      rw [hall v hv]
      simp
    simp only [handleDeleteFile, cascadeJobs, deleteJobCascade, hfil]
    rw [if_neg (by simp), if_pos hjob]
    simp
  · intro hfail
    have hcase : deleteJobCascade pdfOk invOk jobOk j =
        ((j.invoices.filter (fun v => v.pdfS3Key.isSome)).map
          (fun v => DelOp.pdfDelete (v.pdfS3Key.getD "")) ++
          j.invoices.map (fun v => DelOp.invoiceDelete v.id),
         some (cascadeErrMsg ((j.invoices.filter (fun v => ! invOk v.id)).length)
           j.invoices.length)) := by
      simp only [deleteJobCascade]
      rw [if_pos hfail]
    have hres : handleDeleteFile pdfOk invOk jobOk [j] filePath =
        { ops := (j.invoices.filter (fun v => v.pdfS3Key.isSome)).map
            (fun v => DelOp.pdfDelete (v.pdfS3Key.getD "")) ++
            j.invoices.map (fun v => DelOp.invoiceDelete v.id)
          error := some (cascadeErrMsg
            ((j.invoices.filter (fun v => ! invOk v.id)).length) j.invoices.length) } := by
      simp only [handleDeleteFile, cascadeJobs, hcase]
    rw [hres]
    refine ⟨?_, ?_, rfl⟩
    · intro i hmem
      rcases List.mem_append.mp hmem with hmem | hmem
      · rcases List.mem_map.mp hmem with ⟨v, _, hv⟩
        cases hv
      · rcases List.mem_map.mp hmem with ⟨v, _, hv⟩
        cases hv
    · intro p hmem
      rcases List.mem_append.mp hmem with hmem | hmem
      · rcases List.mem_map.mp hmem with ⟨v, _, hv⟩
        cases hv
      · rcases List.mem_map.mp hmem with ⟨v, _, hv⟩
        cases hv

/-- Witness for C5 at a concrete job with five invoice records, two of
them carrying a PDF: exactly two attachment deletes, five record deletes,
one job delete and one file delete are issued, in that order. -/
theorem claim_C5_witness :
    handleDeleteFile (fun _ => true) (fun _ => true) (fun _ => true) [exJob] "f.csv" =
      { ops := [DelOp.pdfDelete "p1.pdf", DelOp.pdfDelete "p3.pdf",
                DelOp.invoiceDelete "i1", DelOp.invoiceDelete "i2",
                DelOp.invoiceDelete "i3", DelOp.invoiceDelete "i4",
                DelOp.invoiceDelete "i5",
                DelOp.jobDelete "job-1", DelOp.fileDelete "f.csv"]
        error := none } := by
  have h := (claim_C5_cascade_order (fun _ => true) (fun _ => true) (fun _ => true)
    (fun _ => true) exJob [] "f.csv").1 (by decide) (by decide)
  rw [h]
  decide

/-! ## Claim C1: final job status and counts -/

theorem statsFrom_spec (backend : Nat → BackendResult) :
    ∀ (i : Nat) (rows : List InvoiceData),
      (statsFrom backend i rows).successfulCount = countSuccFrom backend i rows ∧
      (statsFrom backend i rows).failedCount = countFailFrom backend i rows ∧
      countSuccFrom backend i rows + countFailFrom backend i rows = rows.length
  | _, [] => by simp [statsFrom, countSuccFrom, countFailFrom]
  | i, inv :: rest => by
    obtain ⟨ih1, ih2, ih3⟩ := statsFrom_spec backend (i + 1) rest
    simp only [statsFrom, countSuccFrom, countFailFrom, List.length_cons]
    cases h : (rowOutcome backend i inv).1 <;>
      simp only [h, if_true, if_false, Bool.false_eq_true, ite_true, ite_false] <;>
      refine ⟨?_, ?_, ?_⟩ <;> simp [ih1, ih2] <;> omega

/-- C1: after all batches complete, the single job update carries status
FAILED exactly when zero rows succeeded and at least one row was
attempted; in every other case (including some failures among successes)
the status is COMPLETED; and the stored counts equal the number of
successfully created rows and the number of failed rows, which together
exhaust the attempted rows. -/
theorem claim_C1_final_status_and_counts (backend : Nat → BackendResult)
    (rows : List InvoiceData) :
    ((jobFinalUpdate backend rows).status = .FAILED ↔
      countSuccFrom backend 1 rows = 0 ∧ rows ≠ []) ∧
    ((jobFinalUpdate backend rows).status = .COMPLETED ∨
      (jobFinalUpdate backend rows).status = .FAILED) ∧
    (jobFinalUpdate backend rows).successfulInvoices = countSuccFrom backend 1 rows ∧
    (jobFinalUpdate backend rows).failedInvoices = countFailFrom backend 1 rows ∧
    (jobFinalUpdate backend rows).totalInvoices = rows.length ∧
    countSuccFrom backend 1 rows + countFailFrom backend 1 rows = rows.length := by
  obtain ⟨h1, h2, h3⟩ := statsFrom_spec backend 1 rows
  have hstat : (jobFinalUpdate backend rows).status =
      finalStatus (statsFrom backend 1 rows) := rfl
  have hsucc : (jobFinalUpdate backend rows).successfulInvoices =
      (statsFrom backend 1 rows).successfulCount := rfl
  have hfail : (jobFinalUpdate backend rows).failedInvoices =
      (statsFrom backend 1 rows).failedCount := rfl
  have hne : rows ≠ [] ↔ rows.length ≠ 0 := by
    constructor
    · intro h hc
      exact h (List.eq_nil_of_length_eq_zero hc)
    · intro h hc
      subst hc
      exact h rfl
  refine ⟨?_, ?_, by rw [hsucc, h1], by rw [hfail, h2], rfl, h3⟩
  · rw [hstat]
    unfold finalStatus
    by_cases hf : (statsFrom backend 1 rows).failedCount = 0
    · rw [if_pos hf]
      constructor
      · intro hc
        cases hc
      · rintro ⟨hs0, hrne⟩
        have hl : rows.length ≠ 0 := hne.mp hrne
        omega
    · rw [if_neg hf]
      by_cases hs : (statsFrom backend 1 rows).successfulCount = 0
      · rw [if_pos hs]
        constructor
        · intro _
          refine ⟨by omega, hne.mpr (by omega)⟩
        · intro _
          rfl
      · rw [if_neg hs]
        constructor
        · intro hc
          cases hc
        · rintro ⟨hs0, _⟩
          exact absurd (h1.trans hs0) hs
  · rw [hstat]
    unfold finalStatus
    by_cases hf : (statsFrom backend 1 rows).failedCount = 0
    · rw [if_pos hf]
      exact Or.inl rfl
    · rw [if_neg hf]
      by_cases hs : (statsFrom backend 1 rows).successfulCount = 0
      · rw [if_pos hs]
        exact Or.inr rfl
      · rw [if_neg hs]
        exact Or.inl rfl

/-- Witness for C1 at a concrete input: a run over one invalid row has
zero successes and one attempt, so the final status is FAILED. -/
theorem claim_C1_witness :
    (jobFinalUpdate (fun _ => .ok) [exInvoiceBad]).status = .FAILED :=
  (claim_C1_final_status_and_counts (fun _ => .ok) [exInvoiceBad]).1.mpr
    ⟨by decide, by decide⟩

/-! ## Claim C3: batch partitioning and sequencing -/

theorem chunks25_eq_nil_iff {α : Type} (l : List α) : chunks25 l = [] ↔ l = [] := by
  cases l <;> simp [chunks25]

theorem chunks25_flatten {α : Type} (l : List α) : (chunks25 l).flatten = l := by
  induction l using chunks25.induct with
  | case1 => simp [chunks25]
  | case2 x xs ih =>
    rw [chunks25]
    simp only [List.flatten_cons, ih]
    have hdrop : xs.drop 24 = (x :: xs).drop 25 := rfl
    rw [hdrop, List.take_append_drop]

theorem chunks25_length {α : Type} (l : List α) :
    (chunks25 l).length = (l.length + 24) / 25 := by
  induction l using chunks25.induct with
  | case1 => simp [chunks25]
  | case2 x xs ih =>
    rw [chunks25]
    simp only [List.length_cons, ih, List.length_drop]
    omega

theorem chunks25_mem_size {α : Type} (l : List α) :
    ∀ b ∈ chunks25 l, b.length ≤ 25 ∧ b ≠ [] := by
  induction l using chunks25.induct with
  | case1 => simp [chunks25]
  | case2 x xs ih =>
    intro b hb
    rw [chunks25] at hb
    rcases List.mem_cons.mp hb with hb | hb
    · subst hb
      constructor
      · simp [List.length_take]
      · rw [List.take_succ_cons]
        exact List.cons_ne_nil x _
    · exact ih b hb

theorem chunks25_getD_full {α : Type} (l : List α) :
    ∀ i, i + 1 < (chunks25 l).length → ((chunks25 l).getD i []).length = 25 := by
  induction l using chunks25.induct with
  | case1 => simp [chunks25]
  | case2 x xs ih =>
    intro i hi
    rw [chunks25] at hi ⊢
    cases i with
    | zero =>
      simp only [List.getD_cons_zero]
      have hrest : chunks25 (xs.drop 24) ≠ [] := by
        intro hc
        rw [hc] at hi
        simp at hi
      have hdrop : xs.drop 24 ≠ [] := by
        intro hc
        exact hrest ((chunks25_eq_nil_iff (xs.drop 24)).mpr hc)
      have hlen : 24 < xs.length := by
        by_contra hc
        push_neg at hc
        exact hdrop (List.drop_eq_nil_of_le hc)
      simp only [List.length_take, List.length_cons]
      omega
    | succ i2 =>
      simp only [List.getD_cons_succ]
      exact ih i2 (by simpa using hi)

theorem traceFrom_mem_batch :
    ∀ (b : Nat) (L : List (List Nat)) (e : ImportEvent),
      e ∈ traceFrom b L → b ≤ e.batchOf := by
  intro b L
  induction L generalizing b with
  | nil =>
    intro e he
    simp [traceFrom] at he
  | cons batch rest ih =>
    intro e he
    simp only [traceFrom, List.mem_append, List.mem_map, List.mem_singleton] at he
    rcases he with (⟨r, _, hr⟩ | he) | he
    · subst hr
      exact le_refl b
    · subst he
      exact le_refl b
    · exact le_trans (Nat.le_succ b) (ih (b + 1) e he)

theorem traceFrom_head_batch (b : Nat) (batch : List Nat) (e : ImportEvent)
    (he : e ∈ batch.map (ImportEvent.issue b) ++ [ImportEvent.settled b]) :
    e.batchOf = b := by
  rcases List.mem_append.mp he with he | he
  · rcases List.mem_map.mp he with ⟨r, _, hr⟩
    subst hr
    rfl
  · rcases List.mem_singleton.mp he with rfl
    rfl

theorem traceFrom_pairwise :
    ∀ (b : Nat) (L : List (List Nat)),
      (traceFrom b L).Pairwise (fun e1 e2 => e1.batchOf ≤ e2.batchOf) := by
  intro b L
  induction L generalizing b with
  | nil => simp [traceFrom]
  | cons batch rest ih =>
    simp only [traceFrom]
    rw [List.pairwise_append]
    refine ⟨?_, ih (b + 1), ?_⟩
    · refine List.pairwise_of_forall_mem_list ?_
      intro e1 h1 e2 h2
      rw [traceFrom_head_batch b batch e1 h1, traceFrom_head_batch b batch e2 h2]
    · intro e1 h1 e2 h2
      rw [traceFrom_head_batch b batch e1 h1]
      exact le_trans (Nat.le_succ b) (traceFrom_mem_batch (b + 1) rest e2 h2)

/-- C3: the importer partitions the row list into exactly `ceil(n / 25)`
batches, in order (their concatenation is the row list); every batch is
non-empty with at most 25 rows and every non-final batch holds exactly
25; in the scheduling trace, the settling of batch `N` precedes every
dispatch of batch `N + 1`; and 60 rows yield exactly 3 batches of sizes
25, 25, 10. -/
theorem claim_C3_batching (rows : List InvoiceData) :
    ((chunks25 rows).length = (rows.length + 24) / 25) ∧
    ((chunks25 rows).flatten = rows) ∧
    (∀ b ∈ chunks25 rows, b.length ≤ 25 ∧ b ≠ []) ∧
    (∀ i, i + 1 < (chunks25 rows).length → ((chunks25 rows).getD i []).length = 25) ∧
    (∀ N r i j : Nat,
      (importTrace rows.length)[i]? = some (ImportEvent.settled N) →
      (importTrace rows.length)[j]? = some (ImportEvent.issue (N + 1) r) → i < j) ∧
    (rows.length = 60 → (chunks25 rows).map List.length = [25, 25, 10]) := by
  refine ⟨chunks25_length rows, chunks25_flatten rows, chunks25_mem_size rows,
    chunks25_getD_full rows, ?_, ?_⟩
  · intro N r i j hi hj
    have hp : (importTrace rows.length).Pairwise (fun e1 e2 => e1.batchOf ≤ e2.batchOf) :=
      traceFrom_pairwise 1 (chunks25 (List.range' 1 rows.length))
    rcases List.getElem?_eq_some.mp hi with ⟨hil, hie⟩
    rcases List.getElem?_eq_some.mp hj with ⟨hjl, hje⟩
    by_contra hc
    push_neg at hc
    rcases Nat.lt_or_ge j i with hlt | hge
    · have hr := List.pairwise_iff_getElem.mp hp j i hjl hil hlt
      rw [hie, hje] at hr
      simp [ImportEvent.batchOf] at hr
    · have hij : i = j := by omega
      subst hij
      rw [hie] at hje
      cases hje
  · intro h60
    have hlen : (chunks25 rows).length = 3 := by
      rw [chunks25_length, h60]
    obtain ⟨c0, c1, c2, hc⟩ := List.length_eq_three.mp hlen
    have h0 : c0.length = 25 := by
      have := chunks25_getD_full rows 0 (by rw [hlen]; omega)
      rw [hc] at this
      simpa using this
    have h1 : c1.length = 25 := by
      have := chunks25_getD_full rows 1 (by rw [hlen]; omega)
      rw [hc] at this
      simpa using this
    have hsum : c0.length + c1.length + c2.length = 60 := by
      have hj := chunks25_flatten rows
      have hjl := congrArg List.length hj
      rw [hc, h60] at hjl
      simp at hjl
      omega
    rw [hc]
    simp only [List.map_cons, List.map_nil, h0, h1]
    have h2 : c2.length = 10 := by omega
    rw [h2]

/-- Witness for C3 at a concrete input: over 60 rows the first batch holds
exactly 25 rows. -/
theorem claim_C3_witness :
    ((chunks25 (List.replicate 60 exInvoiceOk)).getD 0 []).length = 25 :=
  (claim_C3_batching (List.replicate 60 exInvoiceOk)).2.2.2.1 0
    (by rw [chunks25_length]; simp)

/-! ## Claim C6: due date strictly after issue date -/

theorem digitChar_lt_iff (a b : Nat) (ha : a < 10) (hb : b < 10) :
    (Nat.digitChar a < Nat.digitChar b) ↔ a < b := by
  interval_cases a <;> interval_cases b <;> decide

theorem jsLtL_digit_cons (a b : Nat) (u v : List Char) (ha : a < 10) (hb : b < 10) :
    jsLtL (Nat.digitChar a :: u) (Nat.digitChar b :: v) =
      (if a < b then true else if b < a then false else jsLtL u v) := by
  show (if Nat.digitChar a < Nat.digitChar b then true
    else if Nat.digitChar b < Nat.digitChar a then false else jsLtL u v) = _
  by_cases hab : a < b
  · rw [if_pos ((digitChar_lt_iff a b ha hb).mpr hab), if_pos hab]
  · rw [if_neg (fun hc => hab ((digitChar_lt_iff a b ha hb).mp hc)), if_neg hab]
    by_cases hba : b < a
    · rw [if_pos ((digitChar_lt_iff b a hb ha).mpr hba), if_pos hba]
    · rw [if_neg (fun hc => hba ((digitChar_lt_iff b a hb ha).mp hc)), if_neg hba]

theorem jsLtL_pad2 (a b : Nat) (u v : List Char) (ha : a < 100) (hb : b < 100) :
    jsLtL (pad2 a ++ u) (pad2 b ++ v) =
      (if a < b then true else if b < a then false else jsLtL u v) := by
  simp only [pad2, List.cons_append, List.nil_append]
  rw [jsLtL_digit_cons (a / 10) (b / 10) _ _ (by omega) (by omega)]
  rw [jsLtL_digit_cons (a % 10) (b % 10) u v (by omega) (by omega)]
  split_ifs <;> first | rfl | omega

theorem jsLtL_pad4 (a b : Nat) (u v : List Char) (ha : a < 10000) (hb : b < 10000) :
    jsLtL (pad4 a ++ u) (pad4 b ++ v) =
      (if a < b then true else if b < a then false else jsLtL u v) := by
  simp only [pad4, List.append_assoc]
  rw [jsLtL_pad2 (a / 100) (b / 100) _ _ (by omega) (by omega)]
  rw [jsLtL_pad2 (a % 100) (b % 100) u v (by omega) (by omega)]
  split_ifs <;> first | rfl | omega

theorem jsLtL_cons_same (c : Char) (u v : List Char) :
    jsLtL (c :: u) (c :: v) = jsLtL u v := by
  show (if c < c then true else if c < c then false else jsLtL u v) = _
  rw [if_neg (lt_irrefl c), if_neg (lt_irrefl c)]

theorem renderDate_ne_empty (y m d : Nat) : renderDate y m d ≠ "" := by
  intro h
  have hd := congrArg String.data h
  simp [renderDate, pad4, pad2] at hd

theorem renderDate_lt_iff (y1 m1 d1 y2 m2 d2 : Nat)
    (hy1 : y1 < 10000) (hy2 : y2 < 10000) (hm1 : m1 < 100) (hm2 : m2 < 100)
    (hd1 : d1 < 100) (hd2 : d2 < 100) :
    jsLt (renderDate y1 m1 d1) (renderDate y2 m2 d2) = true ↔
      (y1 < y2 ∨ (y1 = y2 ∧ (m1 < m2 ∨ (m1 = m2 ∧ d1 < d2)))) := by
  show jsLtL (pad4 y1 ++ '-' :: (pad2 m1 ++ '-' :: pad2 d1))
      (pad4 y2 ++ '-' :: (pad2 m2 ++ '-' :: pad2 d2)) = true ↔ _
  rw [jsLtL_pad4 y1 y2 _ _ hy1 hy2, jsLtL_cons_same,
    jsLtL_pad2 m1 m2 _ _ hm1 hm2, jsLtL_cons_same,
    show pad2 d1 = pad2 d1 ++ [] from (List.append_nil _).symm,
    show pad2 d2 = pad2 d2 ++ [] from (List.append_nil _).symm,
    jsLtL_pad2 d1 d2 [] [] hd1 hd2]
  show (if y1 < y2 then true else if y2 < y1 then false
    else if m1 < m2 then true else if m2 < m1 then false
    else if d1 < d2 then true else if d2 < d1 then false else jsLtL [] []) = true ↔ _
  split_ifs <;> simp [jsLtL] <;> omega

theorem dateParts_bounds (s : String) (y m d : Nat)
    (h : dateParts s = some (y, m, d)) : y < 10000 ∧ m < 100 ∧ d < 100 := by
  unfold dateParts at h
  split at h
  · next y1 y2 y3 y4 h1c m1c m2c h2c d1c d2c =>
    split at h
    · next hcond =>
      simp only [Option.some.injEq, Prod.mk.injEq] at h
      obtain ⟨hy, hm, hd⟩ := h
      subst hy
      subst hm
      subst hd
      simp only [isDigitChar, Bool.and_eq_true, decide_eq_true_eq] at hcond
      simp only [digitsToNat, List.foldl]
      omega
    · cases h
  · cases h

theorem cond_of_if_nil {c : Prop} [Decidable c] {m : String}
    (h : (if c then ([] : List String) else [m]) = []) : c := by
  by_contra hc
  rw [if_neg hc] at h
  cases h

theorem not_cond_of_if_singleton {c : Prop} [Decidable c] {m : String}
    (h : (if c then [m] else ([] : List String)) = []) : ¬c := by
  intro hc
  rw [if_pos hc] at h
  cases h

/-- C6: for every row the validator marks valid, the stored due date is
strictly greater than the stored issue date under the JavaScript string
comparison of the normalized `YYYY-MM-DD` renderings, and — both being
renderings of valid calendar dates — calendar-date comparison agrees;
when both dates parse but the rule is violated, the cross-field error is
recorded without blanking the already-parsed date values. -/
theorem claim_C6_due_after_issue (row : CsvRow) (n : Nat) :
    ((validateInvoiceData row n).isValid = true →
      jsLt (validateInvoiceData row n).issueDate
        (validateInvoiceData row n).dueDate = true ∧
      ∃ y1 m1 d1 y2 m2 d2 : Nat,
        (validateInvoiceData row n).issueDate = renderDate y1 m1 d1 ∧
        (validateInvoiceData row n).dueDate = renderDate y2 m2 d2 ∧
        validYMD y1 m1 d1 = true ∧ validYMD y2 m2 d2 = true ∧
        (y1 < y2 ∨ (y1 = y2 ∧ (m1 < m2 ∨ (m1 = m2 ∧ d1 < d2))))) ∧
    (dateFieldOk (getField row "issue_date") = true →
      dateFieldOk (getField row "due_date") = true →
      crossBad row = true →
      (validateInvoiceData row n).issueDate =
        formatDateString (getField row "issue_date") ∧
      (validateInvoiceData row n).dueDate =
        formatDateString (getField row "due_date") ∧
      crossErrMsg n ∈ (validateInvoiceData row n).validationErrors) := by
  constructor
  · intro hval
    have hL := (isValid_true_iff row n).mp hval
    simp only [validationErrorList, List.append_eq_nil] at hL
    obtain ⟨⟨⟨⟨⟨⟨⟨⟨h1, h2⟩, h3⟩, h4⟩, h5⟩, h6⟩, h7⟩, h8⟩, h9⟩ := hL
    have hIss : dateFieldOk (getField row "issue_date") = true := cond_of_if_nil h7
    have hDue : dateFieldOk (getField row "due_date") = true := cond_of_if_nil h8
    have hcb : crossBad row = false := by
      have := not_cond_of_if_singleton h9
      revert this
      cases crossBad row <;> simp
    have hIssV : isValidDate (getField row "issue_date") = true := by
      simp only [dateFieldOk, Bool.and_eq_true] at hIss
      exact hIss.2
    have hDueV : isValidDate (getField row "due_date") = true := by
      simp only [dateFieldOk, Bool.and_eq_true] at hDue
      exact hDue.2
    obtain ⟨y1, m1, d1, hdp1, hv1⟩ :
        ∃ y1 m1 d1, dateParts (getField row "issue_date") = some (y1, m1, d1) ∧
          validYMD y1 m1 d1 = true := by
      unfold isValidDate at hIssV
      split at hIssV
      · next y m d hdp => exact ⟨y, m, d, hdp, hIssV⟩
      · cases hIssV
    obtain ⟨y2, m2, d2, hdp2, hv2⟩ :
        ∃ y2 m2 d2, dateParts (getField row "due_date") = some (y2, m2, d2) ∧
          validYMD y2 m2 d2 = true := by
      unfold isValidDate at hDueV
      split at hDueV
      · next y m d hdp => exact ⟨y, m, d, hdp, hDueV⟩
      · cases hDueV
    have hfmt1 : formatDateString (getField row "issue_date") = renderDate y1 m1 d1 := by
      unfold formatDateString
      rw [hdp1]
    have hfmt2 : formatDateString (getField row "due_date") = renderDate y2 m2 d2 := by
      unfold formatDateString
      rw [hdp2]
    have hst1 : storedDate (getField row "issue_date") = renderDate y1 m1 d1 := by
      rw [storedDate, if_pos hIss, hfmt1]
    have hst2 : storedDate (getField row "due_date") = renderDate y2 m2 d2 := by
      rw [storedDate, if_pos hDue, hfmt2]
    have hjsle : jsLe (storedDate (getField row "due_date"))
        (storedDate (getField row "issue_date")) = false := by
      cases hc : jsLe (storedDate (getField row "due_date"))
          (storedDate (getField row "issue_date")) with
      | false => rfl
      | true =>
        have hct : crossBad row = true := by
          simp only [crossBad, Bool.and_eq_true, bne_iff_ne, ne_eq]
          refine ⟨⟨?_, ?_⟩, hc⟩
          · rw [hst1]
            exact renderDate_ne_empty y1 m1 d1
          · rw [hst2]
            exact renderDate_ne_empty y2 m2 d2
        rw [hct] at hcb
        cases hcb
    have hltb : jsLt (storedDate (getField row "issue_date"))
        (storedDate (getField row "due_date")) = true := by
      simp only [jsLe] at hjsle
      simp only [jsLt]
      cases hx : jsLtL (storedDate (getField row "issue_date")).data
          (storedDate (getField row "due_date")).data with
      | true => rfl
      | false =>
        rw [hx] at hjsle
        simp at hjsle
    obtain ⟨hy1, hm1, hd1⟩ := dateParts_bounds _ y1 m1 d1 hdp1
    obtain ⟨hy2, hm2, hd2⟩ := dateParts_bounds _ y2 m2 d2 hdp2
    have htuple : y1 < y2 ∨ (y1 = y2 ∧ (m1 < m2 ∨ (m1 = m2 ∧ d1 < d2))) := by
      rw [hst1, hst2] at hltb
      exact (renderDate_lt_iff y1 m1 d1 y2 m2 d2 hy1 hy2 hm1 hm2 hd1 hd2).mp hltb
    refine ⟨?_, y1, m1, d1, y2, m2, d2, ?_, ?_, hv1, hv2, htuple⟩
    · rw [validate_issueDate_eq, validate_dueDate_eq]
      exact hltb
    · rw [validate_issueDate_eq]
      exact hst1
    · rw [validate_dueDate_eq]
      exact hst2
  · intro hIss hDue hcb
    refine ⟨?_, ?_, ?_⟩
    · rw [validate_issueDate_eq, storedDate, if_pos hIss]
    · rw [validate_dueDate_eq, storedDate, if_pos hDue]
    · rw [validationErrors_eq]
      simp [validationErrorList, hcb]

/-- Witness for C6 at a concrete valid row: the stored issue date
2024-01-15 sorts strictly below the stored due date 2024-02-01. -/
theorem claim_C6_witness :
    jsLt (validateInvoiceData exRowValid 2).issueDate
      (validateInvoiceData exRowValid 2).dueDate = true :=
  ((claim_C6_due_after_issue exRowValid 2).1 (by decide)).1

end InvoiceViewer
